import Mathlib

/-
  Verification of the streaming-ingestion pipeline of the llm-trading-app
  repository (Binance websocket client, trade normalizer, batch buffer and
  database writer) against its natural-language specification.

  The repository contains two parallel implementations of the pipeline:
  - variant A, the path-named files (src/src/services/binance-websocket.ts
    first class, the PricePollerService using `tradeBuffer` with a
    2 x batchSize requeue guard, and src/src/database/index.ts whose
    insertTradesBatch issues plain INSERTs);
  - variant B, the concatenated sibling files (the PricePollerService using
    `batchBuffer` with an unconditional requeue, the BinanceWebSocketService
    with hard-coded backoff constants, and the DatabaseService of
    src/unnamed/part_002 whose insertTradesBatch uses
    ON CONFLICT (trade_id) DO NOTHING).

  JS numbers on trade prices and quantities are modelled as rationals,
  timestamps and ids as integers, and buffers as lists.  Each definition
  carries a comment naming the source lines it embeds.
-/

namespace LLMTrading

/-! ## Data model: canonical trade records and wire messages -/

/-- TradeData of variant B (types/market.ts shape): symbol, price, quantity,
event timestamp `T`, exchange trade id `t`, side string, and the
buyer/seller order ids, as built by `processTrade`
(binance-websocket.ts lines 932-950). -/
structure TradeData where
  symbol : String
  price : ℚ
  quantity : ℚ
  timestampMs : ℤ
  tradeId : ℤ
  side : String
  buyerOrderId : ℤ
  sellerOrderId : ℤ
deriving DecidableEq

/-- TradeData of variant A, as built by `handleTradeEvent`
(binance-websocket.ts lines 163-174): no order ids. -/
structure TradeDataA where
  timestampMs : ℤ
  symbol : String
  price : ℚ
  quantity : ℚ
  side : String
  tradeId : ℤ
deriving DecidableEq

/-- A Binance trade event payload (fields e = trade, s, p, q, T, t, m, b, a).
The textual price `p` and quantity `q` are carried as the rational value
that `parseFloat` yields on them. -/
structure BinanceTradeMessage where
  s : String
  p : ℚ
  q : ℚ
  T : ℤ
  t : ℤ
  m : Bool
  b : ℤ
  a : ℤ
deriving DecidableEq

/-- The event-kind tagged union of recognized inbound event payloads:
trade, 24hrTicker, kline (with its closed flag k.x), or an unknown tag. -/
inductive EventMsg where
  | trade (msg : BinanceTradeMessage)
  | ticker24hr
  | kline (closedFlag : Bool)
  | other (tag : String)
deriving DecidableEq

/-- A successfully JSON-parsed websocket message: either the flat
single-stream shape (has field e), the combined multi-stream wrapper
with stream and data fields, or some other JSON value (unknown shape). -/
inductive ParsedMessage where
  | single (ev : EventMsg)
  | combined (stream : String) (ev : EventMsg)
  | unknownShape
deriving DecidableEq

/-- An inbound websocket frame: `invalid` stands for data on which
JSON.parse raises, `parsed` for a successful parse. -/
inductive WireMessage where
  | invalid
  | parsed (msg : ParsedMessage)
deriving DecidableEq

/-! ## Variant A stream client (binance-websocket.ts lines 13-305) -/

namespace BinanceA

/-- Events the variant-A service emits from its message path. -/
inductive Emitted where
  | trade (t : TradeDataA)
  | ticker
  | kline
deriving DecidableEq

/-- handleTradeEvent (lines 163-174): builds a TradeData from the event and
emits it.  No validation of price, quantity or symbol is performed. -/
def handleTradeEvent (msg : BinanceTradeMessage) : List TradeDataA :=
  [{ timestampMs := msg.T, symbol := msg.s, price := msg.p, quantity := msg.q,
     side := if msg.m then "SELL" else "BUY", tradeId := msg.t }]

/-- processEvent (lines 140-161): dispatch on the event tag; the kline
handler (lines 189-207) only emits closed klines; unknown tags are logged
and dropped; the body is wrapped in try/catch so nothing escapes. -/
def processEvent : EventMsg → List Emitted
  | .trade msg => (handleTradeEvent msg).map Emitted.trade
  | .ticker24hr => [Emitted.ticker]
  | .kline closedFlag => if closedFlag then [Emitted.kline] else []
  | .other _ => []

/-- handleMessage (lines 113-138): JSON.parse inside try/catch (parse
failures are logged and dropped), then dispatch of the single-stream or
combined shape; unknown shapes are logged and dropped. -/
def handleMessage : WireMessage → List Emitted
  | .invalid => []
  | .parsed (.single ev) => processEvent ev
  | .parsed (.combined _ ev) => processEvent ev
  | .parsed .unknownShape => []

end BinanceA

/-! ## Variant B stream client (binance-websocket.ts lines 824-1026) -/

namespace BinanceB

/-- processTrade (lines 932-950): builds the TradeData (symbol upper-cased,
side from the maker flag) and emits it; the try/catch increments errorCount
only if the body raises, which for these total field accesses it does not.
Returns the emitted records and the errorCount increment.  No validation of
price, quantity or symbol is performed. -/
def processTrade (msg : BinanceTradeMessage) : List TradeData × ℕ :=
  ([{ symbol := msg.s.toUpper, price := msg.p, quantity := msg.q,
      timestampMs := msg.T, tradeId := msg.t,
      side := if msg.m then "sell" else "buy",
      buyerOrderId := msg.b, sellerOrderId := msg.a }], 0)

/-- handleMessage (lines 916-930): JSON.parse (which raises on invalid
data, modelled as the error case), then the combined shape is unwrapped and
its data processed when tagged trade; a flat message is processed when
tagged trade; anything else is dropped. -/
def handleMessageInner : WireMessage → Except Unit (List TradeData × ℕ)
  | .invalid => .error ()
  | .parsed (.combined _ (.trade msg)) => .ok (processTrade msg)
  | .parsed (.combined _ _) => .ok ([], 0)
  | .parsed (.single (.trade msg)) => .ok (processTrade msg)
  | .parsed (.single _) => .ok ([], 0)
  | .parsed .unknownShape => .ok ([], 0)

/-- The message listener (lines 888-896): handleMessage runs inside
try/catch; a raised error is logged and counted in errorCount, and nothing
propagates to the socket read loop. -/
def onMessage (w : WireMessage) : List TradeData × ℕ :=
  match handleMessageInner w with
  | .ok r => r
  | .error _ => ([], 1)

/-- A message is malformed when JSON.parse fails, the parsed value has
neither recognized shape, or the event-kind tag is unknown. -/
def badMessage : WireMessage → Bool
  | .invalid => true
  | .parsed .unknownShape => true
  | .parsed (.single (.other _)) => true
  | .parsed (.combined _ (.other _)) => true
  | _ => false

end BinanceB

/-! ## Reconnect state machine -/

/-- Connection-retry state of the websocket client: the reconnect attempt
counter. -/
structure WSState where
  reconnectAttempts : ℕ
deriving DecidableEq

/-- The backoff formula of scheduleReconnect
(variant A lines 233-236: min of reconnectDelay times
backoffMultiplier to the attempt, and maxReconnectDelay;
variant B line 959 instantiates base 1000, multiplier 2, cap 30000). -/
def reconnectDelay (base mult maxd : ℚ) (n : ℕ) : ℚ :=
  min (base * mult ^ n) maxd

/-- Result of one scheduleReconnect call: the new state, the scheduled
delay if one was scheduled, and how many fatal give-up events were
emitted. -/
structure ScheduleResult where
  state : WSState
  scheduled : Option ℚ
  fatalEmits : ℕ
deriving DecidableEq

/-- scheduleReconnect (variant A lines 226-248, variant B lines 952-972):
when the attempt counter has reached maxReconnectAttempts, emit the fatal
give-up event and schedule nothing; otherwise compute the capped
exponential delay from the current counter, increment the counter, and
schedule the reconnect after that delay. -/
def scheduleReconnect (maxAttempts : ℕ) (base mult maxd : ℚ) (s : WSState) :
    ScheduleResult :=
  if maxAttempts ≤ s.reconnectAttempts then
    { state := s, scheduled := none, fatalEmits := 1 }
  else
    { state := { reconnectAttempts := s.reconnectAttempts + 1 },
      scheduled := some (reconnectDelay base mult maxd s.reconnectAttempts),
      fatalEmits := 0 }

/-- The open handler (variant A line 66, variant B line 863) resets the
attempt counter to 0 on a successful connection. -/
def onOpen (_s : WSState) : WSState :=
  { reconnectAttempts := 0 }

/-- The reconnect cascade under consecutive connection failures: each
scheduled reconnect fires, the connection attempt fails, and its catch
handler calls scheduleReconnect again (variant A lines 250-261, variant B
lines 964-971).  Returns the final state, the number of reconnects that
were scheduled, and the number of fatal give-up emissions.  `fuel` bounds
the recursion and is irrelevant once it exceeds the remaining attempts. -/
def failRun (maxAttempts : ℕ) (base mult maxd : ℚ) :
    ℕ → WSState → WSState × ℕ × ℕ
  | 0, s => (s, 0, 0)
  | fuel + 1, s =>
    let r := scheduleReconnect maxAttempts base mult maxd s
    match r.scheduled with
    | none => (r.state, 0, r.fatalEmits)
    | some _ =>
      let rest := failRun maxAttempts base mult maxd fuel r.state
      (rest.1, rest.2.1 + 1, rest.2.2)

/-! ## Batch buffer state machines

The poller buffer logic never inspects the trade payloads, so the state
machines are generic in the record type.  `handed` logs every batch passed
to insertTradesBatch, in handoff order; `pending` holds the batches whose
persistence call is still in flight (the swapped-out copies). -/

/-- Poller buffer state: the active buffer, the in-flight batches, the log
of batches handed to the writer, and the error counter. -/
structure PollerState (α : Type) where
  buffer : List α
  pending : List (List α)
  handed : List (List α)
  errorCount : ℕ
deriving DecidableEq

/-- The initial poller state: everything empty. -/
def PollerState.init (α : Type) : PollerState α :=
  { buffer := [], pending := [], handed := [], errorCount := 0 }

/-- External events driving the poller: a trade arrival, a batch-timer
tick, and the completion (success or failure) of the in-flight persistence
call at the given index of `pending`. -/
inductive Ev (α : Type) where
  | add (t : α)
  | tick
  | persistOk (i : ℕ)
  | persistFail (i : ℕ)
deriving DecidableEq

/-- Whether an event is a persistence failure. -/
def Ev.isFail {α : Type} : Ev α → Bool
  | .persistFail _ => true
  | _ => false

namespace BatchPoller

/-! Variant B PricePollerService (binance-websocket.ts lines 314-551):
`addTradeToBatch` pushes and flushes at batchSize; `processBatch` swaps the
whole buffer out and, on persistence failure, puts the entire batch back at
the front unconditionally (line 451) and increments errorCount. -/

/-- One step of the variant-B poller.
  - add (lines 399-407): push the trade; when the buffer has reached
    batchSize, processBatch synchronously swaps the whole buffer out and
    hands it to the writer.
  - tick (lines 460-473): the timer flushes a non-empty buffer and simply
    re-arms on an empty one; processBatch itself also returns at once on an
    empty buffer (line 410).
  - persistOk (lines 422-445): the in-flight batch is discarded.
  - persistFail (lines 446-457): errorCount is incremented and the entire
    batch is requeued at the front of the buffer. -/
def step (bs : ℕ) (s : PollerState α) : Ev α → PollerState α
  | .add t =>
    if bs ≤ (s.buffer ++ [t]).length then
      { buffer := [], pending := s.pending ++ [s.buffer ++ [t]],
        handed := s.handed ++ [s.buffer ++ [t]], errorCount := s.errorCount }
    else
      { s with buffer := s.buffer ++ [t] }
  | .tick =>
    if s.buffer.length = 0 then s
    else
      { buffer := [], pending := s.pending ++ [s.buffer],
        handed := s.handed ++ [s.buffer], errorCount := s.errorCount }
  | .persistOk i =>
    match s.pending[i]? with
    | none => s
    | some _ => { s with pending := s.pending.eraseIdx i }
  | .persistFail i =>
    match s.pending[i]? with
    | none => s
    | some batch =>
      { buffer := batch ++ s.buffer, pending := s.pending.eraseIdx i,
        handed := s.handed, errorCount := s.errorCount + 1 }

/-- Run the variant-B poller over a sequence of events. -/
def run (bs : ℕ) (evs : List (Ev α)) : PollerState α :=
  evs.foldl (step bs) (PollerState.init α)

end BatchPoller

namespace BufferPoller

/-! Variant A PricePollerService (binance-websocket.ts lines 560-816):
`addTradeToBuffer` pushes and flushes at batchSize; `processBatch` swaps
the whole buffer out and, on persistence failure, requeues the batch at the
front only when the current buffer holds fewer than 2 x batchSize records
(lines 713-716); otherwise the failed batch is discarded.  This poller has
no error counter on the batch path. -/

/-- One step of the variant-A poller: add (lines 665-672), timer tick
(lines 674-680, with the empty guard of line 683), persistence success
(lines 689-705), persistence failure (lines 706-719). -/
def step (bs : ℕ) (s : PollerState α) : Ev α → PollerState α
  | .add t =>
    if bs ≤ (s.buffer ++ [t]).length then
      { buffer := [], pending := s.pending ++ [s.buffer ++ [t]],
        handed := s.handed ++ [s.buffer ++ [t]], errorCount := s.errorCount }
    else
      { s with buffer := s.buffer ++ [t] }
  | .tick =>
    if s.buffer.length = 0 then s
    else
      { buffer := [], pending := s.pending ++ [s.buffer],
        handed := s.handed ++ [s.buffer], errorCount := s.errorCount }
  | .persistOk i =>
    match s.pending[i]? with
    | none => s
    | some _ => { s with pending := s.pending.eraseIdx i }
  | .persistFail i =>
    match s.pending[i]? with
    | none => s
    | some batch =>
      { buffer := if s.buffer.length < 2 * bs then batch ++ s.buffer
                  else s.buffer,
        pending := s.pending.eraseIdx i,
        handed := s.handed, errorCount := s.errorCount }

/-- Run the variant-A poller over a sequence of events. -/
def run (bs : ℕ) (evs : List (Ev α)) : PollerState α :=
  evs.foldl (step bs) (PollerState.init α)

end BufferPoller

/-! ## The database writer -/

/-- Number of stored rows carrying the given trade id. -/
def countId (store : List TradeData) (id : ℤ) : ℕ :=
  store.countP (fun r => r.tradeId = id)

/-- Whether some stored row carries the given trade id. -/
def containsId (store : List TradeData) (id : ℤ) : Bool :=
  store.any (fun r => r.tradeId = id)

namespace DatabaseB

/-- One row of the multi-row INSERT of insertTradesBatch
(src/unnamed/part_002 lines 94-132): ON CONFLICT (trade_id) DO NOTHING
against the part_000 schema whose trade_id column is UNIQUE, so a row whose
trade_id is already present is skipped and no error is raised. -/
def insertRowIgnore (store : List TradeData) (t : TradeData) :
    List TradeData :=
  if containsId store t.tradeId then store else store ++ [t]

/-- insertTradesBatch (src/unnamed/part_002 lines 94-132): the rows of the
single INSERT statement are applied left to right with conflict-ignore
semantics; an empty batch returns at once (line 95) without touching the
pool. -/
def insertTradesBatch (store : List TradeData) (trades : List TradeData) :
    List TradeData :=
  trades.foldl insertRowIgnore store

end DatabaseB

namespace DatabaseA

/-- insertTradesBatch of src/src/database/index.ts (lines 106-144): one
plain INSERT per trade inside a transaction, with no conflict clause; its
schema (README phase-A init script) declares trade_id BIGINT NOT NULL with
only a non-unique index, so every row is appended, duplicates included.
An empty batch returns at once (line 107) without touching the pool. -/
def insertTradesBatch (store : List TradeData) (trades : List TradeData) :
    List TradeData :=
  store ++ trades

end DatabaseA

/-! ## Supervisor start -/

/-- Service-level flags owned by PricePollerService.start. -/
structure ServiceState where
  isRunning : Bool
  dbConnected : Bool
  wsConnected : Bool
  timerOn : Bool
deriving DecidableEq

/-- Side effects start can perform. -/
inductive StartAction where
  | dbConnect
  | wsConnect
  | startTimer
deriving DecidableEq

/-- start (variant B lines 367-397, variant A lines 604-634): when the
service is already running it logs a warning and returns at once,
performing no action; otherwise it connects the database, connects the
websocket, starts the batch timer and marks the service running. -/
def start (s : ServiceState) : ServiceState × List StartAction :=
  if s.isRunning then (s, [])
  else
    ({ isRunning := true, dbConnected := true, wsConnected := true,
       timerOn := true },
     [StartAction.dbConnect, StartAction.wsConnect, StartAction.startTimer])

/-! ## Concrete inputs used by counterexamples and witnesses -/

/-- A well-formed sample trade record. -/
def sampleTrade : TradeData :=
  { symbol := "BTCUSDT", price := 1, quantity := 1, timestampMs := 0,
    tradeId := 42, side := "buy", buyerOrderId := 0, sellerOrderId := 0 }

/-- A trade event with empty symbol, zero price and negative quantity. -/
def badTradeMsg : BinanceTradeMessage :=
  { s := "", p := 0, q := -1, T := 0, t := 7, m := false, b := 0, a := 0 }

/-- A parsed single-stream message with an unrecognized event-kind tag. -/
def unknownTagMsg : WireMessage :=
  WireMessage.parsed (ParsedMessage.single (EventMsg.other "depthUpdate"))

/-- A poller state with one in-flight batch and one buffered arrival. -/
def sFail : PollerState ℕ :=
  { buffer := [9], pending := [[1, 2]], handed := [], errorCount := 0 }

/-- Event trace for the occupancy-cap counterexample (batchSize 2): two
size-triggered flushes, each failing while one record sits in the
buffer. -/
def evsOccupancy : List (Ev ℕ) :=
  [Ev.add 1, Ev.add 2, Ev.add 3, Ev.persistFail 0,
   Ev.add 4, Ev.add 5, Ev.persistFail 0]

/-- Event trace for the requeue counterexample (batchSize 1): three
one-record flushes all failing in turn. -/
def evsRequeue : List (Ev ℕ) :=
  [Ev.add 1, Ev.add 2, Ev.add 3,
   Ev.persistFail 0, Ev.persistFail 0, Ev.persistFail 0]

/-- Event trace for the oversized-batch counterexample (batchSize 1). -/
def evsOversize : List (Ev ℕ) :=
  [Ev.add 10, Ev.persistFail 0, Ev.add 20]

/-- A service state that is already running. -/
def runningState : ServiceState :=
  { isRunning := true, dbConnected := true, wsConnected := true,
    timerOn := true }

/-! ## Writer lemmas -/

theorem countId_append (store l : List TradeData) (id : ℤ) :
    countId (store ++ l) id = countId store id + countId l id := by
  simp [countId, List.countP_append]

theorem containsId_false_countId {store : List TradeData} {id : ℤ}
    (h : containsId store id = false) : countId store id = 0 := by
  unfold countId
  rw [List.countP_eq_zero]
  intro r hr hrp
  have hc : containsId store id = true := by
    unfold containsId
    rw [List.any_eq_true]
    exact ⟨r, hr, hrp⟩
  rw [h] at hc
  cases hc

theorem containsId_true_countId {store : List TradeData} {id : ℤ}
    (h : containsId store id = true) : 1 ≤ countId store id := by
  unfold containsId at h
  rw [List.any_eq_true] at h
  exact List.countP_pos_iff.mpr h

theorem countId_insertRowIgnore_le {store : List TradeData}
    {t : TradeData} {id : ℤ} (h : countId store id ≤ 1) :
    countId (DatabaseB.insertRowIgnore store t) id ≤ 1 := by
  unfold DatabaseB.insertRowIgnore
  by_cases hc : containsId store t.tradeId = true
  · rw [if_pos hc]; exact h
  · rw [if_neg hc, countId_append]
    by_cases ht : t.tradeId = id
    · have hc1 : containsId store id = false := by
        rw [← ht]
        exact Bool.eq_false_iff.mpr hc
      have h0 : countId store id = 0 := containsId_false_countId hc1
      have h1 : countId [t] id = 1 := by simp [countId, ht]
      rw [h0, h1]
    · have h1 : countId [t] id = 0 := by simp [countId, ht]
      rw [h1]
      omega

theorem containsId_insertRowIgnore_self (store : List TradeData)
    (t : TradeData) :
    containsId (DatabaseB.insertRowIgnore store t) t.tradeId = true := by
  unfold DatabaseB.insertRowIgnore
  by_cases hc : containsId store t.tradeId = true
  · rw [if_pos hc]; exact hc
  · rw [if_neg hc]
    unfold containsId
    rw [List.any_eq_true]
    exact ⟨t, List.mem_append_right _ (List.mem_singleton_self t), by simp⟩

theorem containsId_insertRowIgnore_mono {store : List TradeData}
    {id : ℤ} (u : TradeData) (h : containsId store id = true) :
    containsId (DatabaseB.insertRowIgnore store u) id = true := by
  unfold DatabaseB.insertRowIgnore
  by_cases hc : containsId store u.tradeId = true
  · rw [if_pos hc]; exact h
  · rw [if_neg hc]
    unfold containsId at h ⊢
    rw [List.any_eq_true] at h ⊢
    obtain ⟨r, hr, hrid⟩ := h
    exact ⟨r, List.mem_append_left _ hr, hrid⟩

theorem insertTradesBatch_cons (store : List TradeData) (t : TradeData)
    (tl : List TradeData) :
    DatabaseB.insertTradesBatch store (t :: tl) =
      DatabaseB.insertTradesBatch (DatabaseB.insertRowIgnore store t) tl :=
  rfl

theorem insertTradesBatch_append (store l1 l2 : List TradeData) :
    DatabaseB.insertTradesBatch store (l1 ++ l2) =
      DatabaseB.insertTradesBatch (DatabaseB.insertTradesBatch store l1) l2 :=
  List.foldl_append _ _ _ _

theorem countId_insertTradesBatch_le (trades : List TradeData) :
    ∀ store : List TradeData, ∀ id : ℤ, countId store id ≤ 1 →
      countId (DatabaseB.insertTradesBatch store trades) id ≤ 1 := by
  induction trades with
  | nil => intro store id h; exact h
  | cons hd tl ih =>
    intro store id h
    rw [insertTradesBatch_cons]
    exact ih _ id (countId_insertRowIgnore_le h)

theorem containsId_insertTradesBatch_mono (trades : List TradeData) :
    ∀ store : List TradeData, ∀ id : ℤ, containsId store id = true →
      containsId (DatabaseB.insertTradesBatch store trades) id = true := by
  induction trades with
  | nil => intro store id h; exact h
  | cons hd tl ih =>
    intro store id h
    rw [insertTradesBatch_cons]
    exact ih _ id (containsId_insertRowIgnore_mono hd h)

/-! ## Claim theorems -/

/-- C1: persisting the same trade id twice through the conflict-ignoring
insertTradesBatch (src/unnamed/part_002) leaves exactly one stored row: a
row whose trade_id already exists in the store is a no-op and the batch
operation still succeeds.  This is the amended claim: it holds for the
ON CONFLICT (trade_id) DO NOTHING writer, while the plain-INSERT writer of
src/src/database/index.ts stores the duplicate again (see the
counterexample). -/
theorem C1_conflict_ignore_idempotent :
    (∀ (store : List TradeData) (t : TradeData),
       containsId store t.tradeId = true →
       DatabaseB.insertRowIgnore store t = store) ∧
    (∀ (store batch : List TradeData) (t : TradeData),
       countId store t.tradeId ≤ 1 → t ∈ batch →
       countId (DatabaseB.insertTradesBatch store batch) t.tradeId = 1) := by
  constructor
  · intro store t h
    simp [DatabaseB.insertRowIgnore, h]
  · intro store batch t hle hmem
    obtain ⟨l1, l2, rfl⟩ := List.append_of_mem hmem
    rw [insertTradesBatch_append, insertTradesBatch_cons]
    have h1 : countId (DatabaseB.insertTradesBatch store l1) t.tradeId ≤ 1 :=
      countId_insertTradesBatch_le l1 store t.tradeId hle
    have h2 : countId
        (DatabaseB.insertRowIgnore (DatabaseB.insertTradesBatch store l1) t)
        t.tradeId ≤ 1 := countId_insertRowIgnore_le h1
    have h3 : containsId
        (DatabaseB.insertRowIgnore (DatabaseB.insertTradesBatch store l1) t)
        t.tradeId = true := containsId_insertRowIgnore_self _ t
    have h4 := countId_insertTradesBatch_le l2 _ t.tradeId h2
    have h5 := containsId_insertTradesBatch_mono l2 _ t.tradeId h3
    have h6 := containsId_true_countId h5
    omega

/-- C1 witness: inserting a batch that carries the sample trade twice into
an empty store leaves exactly one row with its trade id. -/
theorem C1_conflict_ignore_idempotent_witness :
    countId ([] : List TradeData) sampleTrade.tradeId ≤ 1 ∧
    sampleTrade ∈ [sampleTrade, sampleTrade] ∧
    countId (DatabaseB.insertTradesBatch [] [sampleTrade, sampleTrade])
      sampleTrade.tradeId = 1 :=
  ⟨by decide, by simp,
   C1_conflict_ignore_idempotent.2 [] [sampleTrade, sampleTrade] sampleTrade
     (by decide) (by simp)⟩

/-- C1 counterexample: the plain-INSERT insertTradesBatch of
src/src/database/index.ts appends a redelivered trade again, so the store
ends with two rows carrying trade id 42, not one. -/
theorem C1_plain_insert_duplicates :
    countId (DatabaseA.insertTradesBatch
      (DatabaseA.insertTradesBatch [] [sampleTrade]) [sampleTrade])
      sampleTrade.tradeId = 2 ∧
    ¬ countId (DatabaseA.insertTradesBatch
      (DatabaseA.insertTradesBatch [] [sampleTrade]) [sampleTrade])
      sampleTrade.tradeId = 1 := by
  constructor <;> decide

/-- C5 (amended): the normalizer performs no validation: for every trade
event whose price or quantity is non-positive or whose symbol is empty,
both normalizers still emit exactly one trade record, and no exception is
raised to the caller (the variant-B error counter stays at zero). -/
theorem C5_no_validation (msg : BinanceTradeMessage)
    (_h : msg.p ≤ 0 ∨ msg.q ≤ 0 ∨ msg.s = "") :
    (BinanceA.handleTradeEvent msg).length = 1 ∧
    (BinanceB.processTrade msg).1.length = 1 ∧
    (BinanceB.processTrade msg).2 = 0 :=
  ⟨rfl, rfl, rfl⟩

/-- C5 witness: the malformed sample event (empty symbol, zero price,
negative quantity) is still normalized into one emitted record. -/
theorem C5_no_validation_witness :
    (badTradeMsg.p ≤ 0 ∨ badTradeMsg.q ≤ 0 ∨ badTradeMsg.s = "") ∧
    (BinanceA.handleTradeEvent badTradeMsg).length = 1 ∧
    (BinanceB.processTrade badTradeMsg).1.length = 1 ∧
    (BinanceB.processTrade badTradeMsg).2 = 0 :=
  ⟨Or.inl (by norm_num [badTradeMsg]),
   C5_no_validation badTradeMsg (Or.inl (by norm_num [badTradeMsg]))⟩

/-- C5 counterexample: a trade event with empty symbol, zero price and
negative quantity is not rejected: processTrade emits a record for it,
contradicting the claim that no trade record is emitted. -/
theorem C5_malformed_still_emitted :
    badTradeMsg.p ≤ 0 ∧ badTradeMsg.q ≤ 0 ∧ badTradeMsg.s = "" ∧
    (BinanceB.processTrade badTradeMsg).1 ≠ [] ∧
    (BinanceA.handleTradeEvent badTradeMsg) ≠ [] := by
  refine ⟨by norm_num [badTradeMsg], by norm_num [badTradeMsg], rfl, ?_, ?_⟩
  · simp [BinanceB.processTrade]
  · simp [BinanceA.handleTradeEvent]

/-- C8: for every inbound websocket message that fails to decode, has an
unknown shape, or carries an unknown event-kind tag, both message handlers
drop it, emitting nothing; a decode failure in variant B is caught and
counted, never propagated to the socket read loop. -/
theorem C8_malformed_dropped :
    (∀ w : WireMessage, BinanceB.badMessage w = true →
       BinanceA.handleMessage w = [] ∧ (BinanceB.onMessage w).1 = []) ∧
    BinanceB.onMessage WireMessage.invalid = ([], 1) := by
  refine ⟨?_, rfl⟩
  intro w hw
  match w with
  | .invalid => exact ⟨rfl, rfl⟩
  | .parsed .unknownShape => exact ⟨rfl, rfl⟩
  | .parsed (.single (.other tag)) => exact ⟨rfl, rfl⟩
  | .parsed (.combined st (.other tag)) => exact ⟨rfl, rfl⟩
  | .parsed (.single (.trade msg)) => simp [BinanceB.badMessage] at hw
  | .parsed (.single .ticker24hr) => simp [BinanceB.badMessage] at hw
  | .parsed (.single (.kline c)) => simp [BinanceB.badMessage] at hw
  | .parsed (.combined st (.trade msg)) => simp [BinanceB.badMessage] at hw
  | .parsed (.combined st .ticker24hr) => simp [BinanceB.badMessage] at hw
  | .parsed (.combined st (.kline c)) => simp [BinanceB.badMessage] at hw

/-- C8 witness: a single-stream message with the unknown tag depthUpdate is
malformed and both handlers drop it. -/
theorem C8_malformed_dropped_witness :
    BinanceB.badMessage unknownTagMsg = true ∧
    BinanceA.handleMessage unknownTagMsg = [] ∧
    (BinanceB.onMessage unknownTagMsg).1 = [] :=
  ⟨rfl, C8_malformed_dropped.1 unknownTagMsg rfl⟩

/-- C6: for every attempt number n below maxReconnectAttempts,
scheduleReconnect schedules exactly the delay
min(baseDelay times backoffMultiplier to the n, maxDelay), increments the
attempt counter afterwards and emits no fatal event; for a multiplier of at
least one the delay sequence is non-decreasing and capped at maxDelay. -/
theorem C6_backoff_delay (base mult maxd : ℚ) (n maxA : ℕ)
    (hbase : 0 ≤ base) (hmult : 1 ≤ mult) (hn : n < maxA) :
    scheduleReconnect maxA base mult maxd ⟨n⟩ =
      { state := ⟨n + 1⟩,
        scheduled := some (reconnectDelay base mult maxd n),
        fatalEmits := 0 } ∧
    reconnectDelay base mult maxd n ≤ reconnectDelay base mult maxd (n + 1) ∧
    reconnectDelay base mult maxd n ≤ maxd := by
  refine ⟨?_, ?_, ?_⟩
  · rw [scheduleReconnect, if_neg (by simpa using Nat.not_le.mpr hn)]
  · rw [reconnectDelay, reconnectDelay]
    refine min_le_min ?_ le_rfl
    have h0 : (0 : ℚ) ≤ mult := le_trans zero_le_one hmult
    have h1 : 0 ≤ base * mult ^ n := mul_nonneg hbase (pow_nonneg h0 n)
    calc base * mult ^ n ≤ base * mult ^ n * mult :=
          le_mul_of_one_le_right h1 hmult
      _ = base * mult ^ (n + 1) := by ring
  · exact min_le_right _ _

/-- C6 witness: with the default configuration (base 1000 ms, multiplier 2,
cap 30000 ms, 10 max attempts) the first scheduling uses attempt 0. -/
theorem C6_backoff_delay_witness :
    (0 : ℚ) ≤ 1000 ∧ (1 : ℚ) ≤ 2 ∧ 0 < 10 ∧
    (scheduleReconnect 10 1000 2 30000 ⟨0⟩ =
      { state := ⟨1⟩, scheduled := some (reconnectDelay 1000 2 30000 0),
        fatalEmits := 0 } ∧
     reconnectDelay 1000 2 30000 0 ≤ reconnectDelay 1000 2 30000 1 ∧
     reconnectDelay 1000 2 30000 0 ≤ 30000) :=
  ⟨by norm_num, by norm_num, by norm_num,
   C6_backoff_delay 1000 2 30000 0 10 (by norm_num) (by norm_num)
     (by norm_num)⟩

/-- Auxiliary: running the failure cascade from attempt counter a with
enough fuel schedules the remaining maxA minus a reconnects, then emits the
fatal event exactly once and stops. -/
theorem failRun_from (maxA : ℕ) (base mult maxd : ℚ) :
    ∀ fuel a, a ≤ maxA → maxA - a < fuel →
      failRun maxA base mult maxd fuel ⟨a⟩ = (⟨maxA⟩, maxA - a, 1) := by
  intro fuel
  induction fuel with
  | zero => intro a _ h2; exact absurd h2 (Nat.not_lt_zero _)
  | succ f ih =>
    intro a h1 h2
    by_cases hc : maxA ≤ a
    · have ha : a = maxA := le_antisymm h1 hc
      subst ha
      simp [failRun, scheduleReconnect, hc]
    · have ha1 : a + 1 ≤ maxA := Nat.succ_le_of_lt (Nat.lt_of_not_le hc)
      have hf : maxA - (a + 1) < f := by omega
      have hrest := ih (a + 1) ha1 hf
      simp only [failRun, scheduleReconnect, if_neg hc]
      rw [hrest]
      refine Prod.ext rfl (Prod.ext ?_ rfl)
      simp only
      omega

/-- C7: starting from a fresh attempt counter, a run of consecutive
reconnect failures schedules exactly maxReconnectAttempts reconnects, then
emits the fatal give-up condition exactly once and schedules nothing
further; the open handler resets the attempt counter to 0. -/
theorem C7_give_up_once (maxA fuel : ℕ) (base mult maxd : ℚ)
    (hfuel : maxA < fuel) :
    failRun maxA base mult maxd fuel ⟨0⟩ = (⟨maxA⟩, maxA, 1) ∧
    (∀ s : WSState, onOpen s = ⟨0⟩) := by
  constructor
  · have := failRun_from maxA base mult maxd fuel 0 (Nat.zero_le _)
      (by omega)
    simpa using this
  · intro s; rfl

/-- C7 witness: with 10 max attempts and fuel 11, the all-failures cascade
schedules 10 reconnects and emits exactly one fatal event. -/
theorem C7_give_up_once_witness :
    10 < 11 ∧
    failRun 10 1000 2 30000 11 ⟨0⟩ = (⟨10⟩, 10, 1) :=
  ⟨by norm_num, (C7_give_up_once 10 11 1000 2 30000 (by norm_num)).1⟩

/-- C10: start is idempotent on a running service: when isRunning is
already true, start returns at once, performs no connect or timer action,
and leaves the state unchanged. -/
theorem C10_start_idempotent (s : ServiceState) (h : s.isRunning = true) :
    start s = (s, []) := by
  simp [start, h]

/-- C10 witness: starting the already-running sample state is a no-op. -/
theorem C10_start_idempotent_witness :
    runningState.isRunning = true ∧ start runningState = (runningState, []) :=
  ⟨rfl, C10_start_idempotent runningState rfl⟩

/-! ## Poller invariant lemmas -/

theorem batch_step_bounded {α : Type} {bs : ℕ} (hbs : 1 ≤ bs)
    {s : PollerState α} {e : Ev α} (he : e.isFail = false)
    (h1 : s.buffer.length < bs) (h2 : ∀ b ∈ s.handed, b.length ≤ bs) :
    (BatchPoller.step bs s e).buffer.length < bs ∧
    ∀ b ∈ (BatchPoller.step bs s e).handed, b.length ≤ bs := by
  cases e with
  | add t =>
    by_cases hb : bs ≤ s.buffer.length + 1
    · have hstep : BatchPoller.step bs s (Ev.add t) =
          { buffer := [], pending := s.pending ++ [s.buffer ++ [t]],
            handed := s.handed ++ [s.buffer ++ [t]],
            errorCount := s.errorCount } := by
        simp [BatchPoller.step, hb]
      rw [hstep]
      refine ⟨by simpa using hbs, ?_⟩
      intro b hbm
      rcases List.mem_append.mp hbm with hm | hm
      · exact h2 b hm
      · have hb1 : b = s.buffer ++ [t] := by simpa using hm
        subst hb1
        simp only [List.length_append, List.length_singleton]
        omega
    · have hstep : BatchPoller.step bs s (Ev.add t) =
          { s with buffer := s.buffer ++ [t] } := by
        simp [BatchPoller.step, hb]
      rw [hstep]
      exact ⟨by simpa using Nat.lt_of_not_le hb, h2⟩
  | tick =>
    by_cases hz : s.buffer.length = 0
    · have hstep : BatchPoller.step bs s Ev.tick = s := by
        simp [BatchPoller.step, hz]
      rw [hstep]; exact ⟨h1, h2⟩
    · have hstep : BatchPoller.step bs s Ev.tick =
          { buffer := [], pending := s.pending ++ [s.buffer],
            handed := s.handed ++ [s.buffer],
            errorCount := s.errorCount } := by
        simp [BatchPoller.step, hz]
      rw [hstep]
      refine ⟨by simpa using hbs, ?_⟩
      intro b hbm
      rcases List.mem_append.mp hbm with hm | hm
      · exact h2 b hm
      · have hb1 : b = s.buffer := by simpa using hm
        subst hb1
        exact le_of_lt h1
  | persistOk i =>
    cases hg : s.pending[i]? with
    | none =>
      have hstep : BatchPoller.step bs s (Ev.persistOk i) = s := by
        simp [BatchPoller.step, hg]
      rw [hstep]; exact ⟨h1, h2⟩
    | some batch =>
      have hstep : BatchPoller.step bs s (Ev.persistOk i) =
          { s with pending := s.pending.eraseIdx i } := by
        simp [BatchPoller.step, hg]
      rw [hstep]; exact ⟨h1, h2⟩
  | persistFail i => simp [Ev.isFail] at he

theorem batch_run_bounded {α : Type} {bs : ℕ} (hbs : 1 ≤ bs) :
    ∀ (evs : List (Ev α)) (s : PollerState α),
      (∀ e ∈ evs, e.isFail = false) →
      s.buffer.length < bs → (∀ b ∈ s.handed, b.length ≤ bs) →
      (evs.foldl (BatchPoller.step bs) s).buffer.length < bs ∧
      ∀ b ∈ (evs.foldl (BatchPoller.step bs) s).handed, b.length ≤ bs := by
  intro evs
  induction evs with
  | nil => intro s _ h1 h2; exact ⟨h1, h2⟩
  | cons e tl ih =>
    intro s hnf h1 h2
    rw [List.foldl_cons]
    have he := hnf e (List.mem_cons_self e tl)
    have hstep := batch_step_bounded hbs he h1 h2
    exact ih _ (fun x hx => hnf x (List.mem_cons_of_mem e hx))
      hstep.1 hstep.2

theorem batch_step_handed_ne {α : Type} (bs : ℕ) (s : PollerState α)
    (e : Ev α) (h : ∀ b ∈ s.handed, b ≠ []) :
    ∀ b ∈ (BatchPoller.step bs s e).handed, b ≠ [] := by
  cases e with
  | add t =>
    by_cases hb : bs ≤ s.buffer.length + 1
    · intro b hbm
      have hbm2 : b ∈ s.handed ++ [s.buffer ++ [t]] := by
        simpa [BatchPoller.step, hb] using hbm
      rcases List.mem_append.mp hbm2 with hm | hm
      · exact h b hm
      · have hb1 : b = s.buffer ++ [t] := by simpa using hm
        subst hb1
        simp
    · intro b hbm
      exact h b (by simpa [BatchPoller.step, hb] using hbm)
  | tick =>
    by_cases hz : s.buffer.length = 0
    · intro b hbm
      exact h b (by simpa [BatchPoller.step, hz] using hbm)
    · intro b hbm
      have hbm2 : b ∈ s.handed ++ [s.buffer] := by
        simpa [BatchPoller.step, hz] using hbm
      rcases List.mem_append.mp hbm2 with hm | hm
      · exact h b hm
      · have hb1 : b = s.buffer := by simpa using hm
        subst hb1
        intro hnil
        rw [hnil] at hz
        exact hz rfl
  | persistOk i =>
    cases hg : s.pending[i]? with
    | none => intro b hbm; exact h b (by simpa [BatchPoller.step, hg] using hbm)
    | some batch =>
      intro b hbm; exact h b (by simpa [BatchPoller.step, hg] using hbm)
  | persistFail i =>
    cases hg : s.pending[i]? with
    | none => intro b hbm; exact h b (by simpa [BatchPoller.step, hg] using hbm)
    | some batch =>
      intro b hbm; exact h b (by simpa [BatchPoller.step, hg] using hbm)

theorem batch_run_handed_ne {α : Type} (bs : ℕ) :
    ∀ (evs : List (Ev α)) (s : PollerState α),
      (∀ b ∈ s.handed, b ≠ []) →
      ∀ b ∈ (evs.foldl (BatchPoller.step bs) s).handed, b ≠ [] := by
  intro evs
  induction evs with
  | nil => intro s h; exact h
  | cons e tl ih =>
    intro s h
    rw [List.foldl_cons]
    exact ih _ (batch_step_handed_ne bs s e h)

/-- C2 (amended): in the absence of failed flushes, every batch handed to
the writer contains at most batchSize records (for a positive batchSize);
after a failed flush requeues records, the next flush can hand a larger
batch (see the counterexample). -/
theorem C2_batches_bounded_without_failures {α : Type} (bs : ℕ)
    (hbs : 1 ≤ bs) (evs : List (Ev α))
    (hnf : ∀ e ∈ evs, e.isFail = false) :
    ∀ b ∈ (BatchPoller.run bs evs).handed, b.length ≤ bs :=
  (batch_run_bounded hbs evs (PollerState.init α) hnf
    (by simp [PollerState.init]; omega) (by simp [PollerState.init])).2

/-- C2 witness: one add with batchSize 1 hands the singleton batch, which
is within the bound. -/
theorem C2_batches_bounded_without_failures_witness :
    (1 ≤ 1) ∧
    ([10] ∈ (BatchPoller.run 1 ([Ev.add 10] : List (Ev ℕ))).handed) ∧
    ([10] : List ℕ).length ≤ 1 :=
  ⟨le_refl 1, by decide,
   C2_batches_bounded_without_failures 1 (le_refl 1) [Ev.add 10]
     (by decide) [10] (by decide)⟩

/-- C2 counterexample: with batchSize 1, a failed flush requeues the
record; the next arrival triggers a flush of the whole buffer and the
writer is handed a batch of 2 records, exceeding batchSize. -/
theorem C2_oversized_batch_after_requeue :
    ([10, 20] ∈ (BatchPoller.run 1 evsOversize).handed) ∧
    ¬ (([10, 20] : List ℕ).length ≤ 1) := by
  constructor
  · decide
  · decide

/-- C3 (amended): on a failed persist the capped poller
(src/src/services/binance-websocket.ts lines 706-719) requeues the whole
failed batch at the front only when current occupancy is below
2 x batchSize, and otherwise discards the whole failed batch; no drop
counter exists (the error count is unchanged), and occupancy after the
step is bounded by the larger of the old occupancy and
2 x batchSize - 1 + the failed batch length — not by 2 x batchSize (see
the counterexample). -/
theorem C3_capped_requeue {α : Type} (bs : ℕ) (s : PollerState α) (i : ℕ)
    (batch : List α) (h : s.pending[i]? = some batch) :
    ((BufferPoller.step bs s (Ev.persistFail i)).buffer =
       if s.buffer.length < 2 * bs then batch ++ s.buffer else s.buffer) ∧
    (BufferPoller.step bs s (Ev.persistFail i)).errorCount = s.errorCount ∧
    (BufferPoller.step bs s (Ev.persistFail i)).buffer.length ≤
      max s.buffer.length (2 * bs - 1 + batch.length) := by
  refine ⟨by simp [BufferPoller.step, h], by simp [BufferPoller.step, h], ?_⟩
  by_cases hlt : s.buffer.length < 2 * bs
  · have hbuf : (BufferPoller.step bs s (Ev.persistFail i)).buffer =
        batch ++ s.buffer := by
      simp [BufferPoller.step, h, hlt]
    rw [hbuf]
    refine le_max_of_le_right ?_
    simp only [List.length_append]
    omega
  · have hbuf : (BufferPoller.step bs s (Ev.persistFail i)).buffer =
        s.buffer := by
      simp [BufferPoller.step, h, hlt]
    rw [hbuf]
    exact le_max_left _ _

/-- C3 witness: one failed persist with occupancy 1 and cap 4 requeues the
two-record batch. -/
theorem C3_capped_requeue_witness :
    sFail.pending[0]? = some [1, 2] ∧
    (((BufferPoller.step 2 sFail (Ev.persistFail 0)).buffer =
       if sFail.buffer.length < 2 * 2 then [1, 2] ++ sFail.buffer
       else sFail.buffer) ∧
     (BufferPoller.step 2 sFail (Ev.persistFail 0)).errorCount =
       sFail.errorCount ∧
     (BufferPoller.step 2 sFail (Ev.persistFail 0)).buffer.length ≤
       max sFail.buffer.length (2 * 2 - 1 + ([1, 2] : List ℕ).length)) :=
  ⟨rfl, C3_capped_requeue 2 sFail 0 [1, 2] rfl⟩

/-- C3 counterexample: with batchSize 2 the occupancy-cap trace leaves 5
records in the buffer, exceeding 2 x batchSize = 4: the combined buffer is
not capped at 2 x batchSize. -/
theorem C3_occupancy_exceeds_cap :
    (BufferPoller.run 2 evsOccupancy).buffer.length = 5 ∧
    ¬ ((BufferPoller.run 2 evsOccupancy).buffer.length ≤ 2 * 2) := by
  constructor
  · decide
  · decide

/-- C4 (amended): in the uncapped poller
(src/src/services/binance-websocket.ts lines 446-457) every failed persist
requeues the entire flushed batch at the front of the buffer, so the
resulting buffer is exactly the failed batch followed by the records that
arrived during the failed persist, and the error counter is incremented;
in the capped poller the same holds only while occupancy is below
2 x batchSize (see the counterexample). -/
theorem C4_requeue_at_front {α : Type} (bs : ℕ) (s : PollerState α) (i : ℕ)
    (batch : List α) (h : s.pending[i]? = some batch) :
    (BatchPoller.step bs s (Ev.persistFail i)).buffer = batch ++ s.buffer ∧
    (BatchPoller.step bs s (Ev.persistFail i)).pending =
      s.pending.eraseIdx i ∧
    (BatchPoller.step bs s (Ev.persistFail i)).errorCount =
      s.errorCount + 1 := by
  refine ⟨?_, ?_, ?_⟩ <;> simp [BatchPoller.step, h]

/-- C4 witness: a failed persist of the two-record in-flight batch puts it
back in front of the buffered arrival. -/
theorem C4_requeue_at_front_witness :
    sFail.pending[0]? = some [1, 2] ∧
    ((BatchPoller.step 2 sFail (Ev.persistFail 0)).buffer =
       [1, 2] ++ sFail.buffer ∧
     (BatchPoller.step 2 sFail (Ev.persistFail 0)).pending =
       sFail.pending.eraseIdx 0 ∧
     (BatchPoller.step 2 sFail (Ev.persistFail 0)).errorCount =
       sFail.errorCount + 1) :=
  ⟨rfl, C4_requeue_at_front 2 sFail 0 [1, 2] rfl⟩

/-- C4 counterexample: in the capped poller with batchSize 1, the third
consecutive persistence failure finds the buffer already at the cap and
discards the failed batch entirely: record 3 is gone from the resulting
buffer instead of being requeued at its front. -/
theorem C4_failed_batch_dropped :
    (BufferPoller.run 1 evsRequeue).buffer = [2, 1] ∧
    ¬ ((3 : ℕ) ∈ (BufferPoller.run 1 evsRequeue).buffer) := by
  constructor
  · decide
  · decide

/-- C9: the writer is never handed an empty batch: every batch in the
handoff log is non-empty; a timer flush on an empty buffer leaves the
state of either poller unchanged; and both insertTradesBatch variants
applied to an empty list return the store untouched without issuing any
operation. -/
theorem C9_no_empty_batches :
    (∀ (α : Type) (bs : ℕ) (evs : List (Ev α)) (b : List α),
       b ∈ (BatchPoller.run bs evs).handed → b ≠ []) ∧
    (∀ (α : Type) (bs : ℕ) (s : PollerState α),
       s.buffer.length = 0 → BatchPoller.step bs s Ev.tick = s) ∧
    (∀ (α : Type) (bs : ℕ) (s : PollerState α),
       s.buffer.length = 0 → BufferPoller.step bs s Ev.tick = s) ∧
    (∀ store : List TradeData, DatabaseB.insertTradesBatch store [] = store) ∧
    (∀ store : List TradeData, DatabaseA.insertTradesBatch store [] = store) := by
  refine ⟨?_, ?_, ?_, ?_, ?_⟩
  · intro α bs evs b hb
    exact batch_run_handed_ne bs evs (PollerState.init α)
      (by simp [PollerState.init]) b hb
  · intro α bs s h
    simp [BatchPoller.step, h]
  · intro α bs s h
    simp [BufferPoller.step, h]
  · intro store; rfl
  · intro store; simp [DatabaseA.insertTradesBatch]

/-- C9 witness: the batch handed by a single size-triggered flush is the
non-empty singleton. -/
theorem C9_no_empty_batches_witness :
    ([0] ∈ (BatchPoller.run 1 ([Ev.add 0] : List (Ev ℕ))).handed) ∧
    ([0] : List ℕ) ≠ [] :=
  ⟨by decide, C9_no_empty_batches.1 ℕ 1 [Ev.add 0] [0] (by decide)⟩

end LLMTrading
